import Mathlib

/-!
Verification of the PDFBooklet imposition engine.

This file gives a shallow embedding, in Lean 4, of the pure logic of the
PDFBooklet repository and proves or refutes the behavioural claims made by
its specification.  The embedding covers:

* `src/logic/booklet_layout.py` — layout planning (booklet, calendar,
  single), modelled exactly, with Python `int` values embedded as `ℤ` and
  non-negative counts as `ℕ`;
* `src/logic/page_transforms.py` — the `Transform` record and the
  transform-resolution logic of `PageTransformManager`, with Python floats
  embedded as exact rationals `ℚ`;
* `src/logic/pdf_saver.py` — the arithmetic of `_merge_page_with_transform`
  (fit scaling, matrix construction for the identity-transform path,
  coefficient snapping, mm→pt shift conversion, Form-XObject naming) and
  the control flow of `save_booklet` (skip-vs-abort semantics), with the
  external pypdf/file-system operations that can raise exceptions modelled
  as explicit failure parameters;
* `src/logic/pdf_renderer.py` — the shift-offset arithmetic of the raster
  preview path (`_render_booklet_spread` and friends).

Python float arithmetic is modelled by exact rational arithmetic; the
claims under study are about the formulas, not about rounding of binary
floats.
-/

/-! ## Layout planning (`src/logic/booklet_layout.py`) -/

/-- `BookletLayout.__init__`, line 33: `padding_needed = (4 - n % 4) % 4`. -/
def padding_needed (original_page_count : ℕ) : ℕ :=
  (4 - original_page_count % 4) % 4

/-- `BookletLayout.__init__`, line 34: `padded_page_count = n + padding_needed`. -/
def padded_page_count (original_page_count : ℕ) : ℕ :=
  original_page_count + padding_needed original_page_count

/-- `BookletLayout.generate_booklet_layout` (lines 36–63).  The Python loop
`for i in range(padded_page_count // 4)` appends the front pair
`(padded - 1 - 2*i, 2*i)` and then the back pair
`(2*i + 1, padded - 1 - (2*i + 1))`; page indices are Python ints,
embedded as `ℤ`. -/
def generate_booklet_layout (original_page_count : ℕ) : List (ℤ × ℤ) :=
  (List.range (padded_page_count original_page_count / 4)).flatMap (fun i =>
    [((padded_page_count original_page_count : ℤ) - 1 - 2 * (i : ℤ), 2 * (i : ℤ)),
     (2 * (i : ℤ) + 1,
      (padded_page_count original_page_count : ℤ) - 1 - (2 * (i : ℤ) + 1))])

/-- `BookletLayout.generate_calendar_layout` (lines 65–86).  The Python loop
`for i in range(0, original_page_count, 2)` visits `i = 2*k` for
`k < ⌈n/2⌉ = (n+1)/2` and appends `(i, i+1 if i+1 < n else -1)`. -/
def generate_calendar_layout (original_page_count : ℕ) : List (ℤ × ℤ) :=
  (List.range ((original_page_count + 1) / 2)).map (fun (k : ℕ) =>
    (((2 * k : ℕ) : ℤ),
     if 2 * k + 1 < original_page_count then ((2 * k + 1 : ℕ) : ℤ) else -1))

/-- `BookletLayout.generate_single_page_layout` (lines 88–99):
`list(range(original_page_count))`. -/
def generate_single_page_layout (original_page_count : ℕ) : List ℤ :=
  (List.range original_page_count).map (fun (i : ℕ) => (i : ℤ))

/-! ## Transforms (`src/logic/page_transforms.py`) -/

/-- The `Transform` dataclass (lines 11–25): shifts in millimetres, scales
in percent, rotation in degrees, mirror flags.  The field defaults are the
Python dataclass defaults, so `{}` is Python's `Transform()`. -/
structure Transform where
  h_shift_mm : ℚ := 0
  v_shift_mm : ℚ := 0
  scale_percent : ℚ := 100
  rotation_deg : ℚ := 0
  h_flip : Bool := false
  v_flip : Bool := false
  h_scale_percent : ℚ := 100
  v_scale_percent : ℚ := 100
deriving DecidableEq, Repr

/-- Python's `Transform()` — the identity transform. -/
def Transform.identity : Transform := {}

/-- The composition formula that `PageTransformManager.get_transform_for_page`
inlines three times (lines 144–153, 159–168 and 171–180), applied to the
higher-priority transform `t` and the global transform `g`: shifts add,
scales multiply as `a * b / 100`, rotation adds, flips XOR (`!=`). -/
def composeWithGlobal (t g : Transform) : Transform :=
  { h_shift_mm := t.h_shift_mm + g.h_shift_mm
    v_shift_mm := t.v_shift_mm + g.v_shift_mm
    scale_percent := t.scale_percent * g.scale_percent / 100
    rotation_deg := t.rotation_deg + g.rotation_deg
    h_flip := t.h_flip != g.h_flip
    v_flip := t.v_flip != g.v_flip
    h_scale_percent := t.h_scale_percent * g.h_scale_percent / 100
    v_scale_percent := t.v_scale_percent * g.v_scale_percent / 100 }

/-- State of a `PageTransformManager` (lines 73–91).  The per-page dict
`page_transforms` is modelled as a partial map from Python-int keys. -/
structure PageTransformManager where
  total_pages : ℕ
  global_transform : Transform := {}
  page_transforms : ℤ → Option Transform := fun _ => none
  even_pages_transform : Option Transform := none
  odd_pages_transform : Option Transform := none

/-- `PageTransformManager.get_transform_for_page` (lines 128–183).
Out-of-range indices return `Transform()`; an explicit per-page entry wins
and is composed with the global transform; otherwise the even/odd domain
transform matching `page_number = page_index + 1` parity applies (composed
with the global transform); otherwise the global transform is returned. -/
def get_transform_for_page (m : PageTransformManager) (page_index : ℤ) : Transform :=
  if page_index < 0 ∨ (m.total_pages : ℤ) ≤ page_index then
    Transform.identity
  else
    match m.page_transforms page_index with
    | some page_t => composeWithGlobal page_t m.global_transform
    | none =>
      if (page_index + 1) % 2 = 0 then
        match m.even_pages_transform with
        | some even_t => composeWithGlobal even_t m.global_transform
        | none => m.global_transform
      else
        match m.odd_pages_transform with
        | some odd_t => composeWithGlobal odd_t m.global_transform
        | none => m.global_transform

/-! ## Vector emission arithmetic (`src/logic/pdf_saver.py`) -/

/-- A PDF coordinate matrix `(a, b, c, d, e, f)`, the `ctm` tuple of the
external writer's `Transformation` object.  Points act as row vectors, so a
point `(x, y)` is mapped to `(a*x + c*y + e, b*x + d*y + f)`. -/
structure CTM where
  a : ℚ
  b : ℚ
  c : ℚ
  d : ℚ
  e : ℚ
  f : ℚ
deriving DecidableEq, Repr

/-- The identity matrix, `Transformation()` of the external writer. -/
def CTM.identity : CTM := ⟨1, 0, 0, 1, 0, 0⟩

/-- `Transformation.translate(tx, ty)` of the external writer: adds to the
`e`/`f` entries. -/
def CTM.translate (m : CTM) (tx ty : ℚ) : CTM :=
  ⟨m.a, m.b, m.c, m.d, m.e + tx, m.f + ty⟩

/-- `Transformation.scale(sx, sy)` of the external writer: right-multiplies
by a diagonal scale matrix. -/
def CTM.scale (m : CTM) (sx sy : ℚ) : CTM :=
  ⟨m.a * sx, m.b * sy, m.c * sx, m.d * sy, m.e * sx, m.f * sy⟩

/-- The snapping tolerance of `_merge_page_with_transform`, `1e-10`
(lines 397–408). -/
def snapEps : ℚ := 1 / 10 ^ 10

/-- The per-coefficient numerical cleanup of `_merge_page_with_transform`
(lines 399–408): values within `1e-10` of `0`, `1` or `-1` are snapped to
the exact value, in that test order; every other value is kept. -/
def snapValue (v : ℚ) : ℚ :=
  if |v| < snapEps then 0
  else if |v - 1| < snapEps then 1
  else if |v + 1| < snapEps then -1
  else v

/-- The cleanup loop applied to all six coefficients of the `ctm`
(lines 399–410). -/
def clean_ctm (m : CTM) : CTM :=
  ⟨snapValue m.a, snapValue m.b, snapValue m.c,
   snapValue m.d, snapValue m.e, snapValue m.f⟩

/-- The aspect-preserving fit scale of `_merge_page_with_transform`
(lines 302–305): `min(target_width / src_width, target_height / src_height)`. -/
def fit_base_scale (src_width src_height target_width target_height : ℚ) : ℚ :=
  min (target_width / src_width) (target_height / src_height)

/-- The coordinate matrix built by `_merge_page_with_transform` on its
no-user-transform path (lines 372–392: `transform` is `None` or an identity
transform).  `base_scale` is the fit scale; when it is within `0.001` of
`1.0` the page is only translated to the target origin, otherwise it is
scaled about its centre and moved to the centred position. -/
def merge_fit_ctm (src_width src_height x0 y0 x1 y1 : ℚ) : CTM :=
  let target_width := x1 - x0
  let target_height := y1 - y0
  let base_scale := min (target_width / src_width) (target_height / src_height)
  let fitted_width := src_width * base_scale
  let fitted_height := src_height * base_scale
  let center_x := x0 + (target_width - fitted_width) / 2
  let center_y := y0 + (target_height - fitted_height) / 2
  if |base_scale - 1| < 1 / 1000 then
    CTM.identity.translate x0 y0
  else
    ((CTM.identity.translate (-(src_width / 2)) (-(src_height / 2))).scale
        base_scale base_scale).translate
      (center_x + fitted_width / 2) (center_y + fitted_height / 2)

/-- A source page as the saver sees it: its mediabox dimensions in points
and whether `get_contents()` returns a content stream (line 430: `None`
means nothing to merge). -/
structure SourcePage where
  width : ℚ
  height : ℚ
  hasContent : Bool
deriving DecidableEq, Repr

/-- Whether `reader.pages[idx].get_contents()` is non-`None`; `false` for
indices outside the reader. -/
def has_content_at (pages : List SourcePage) (idx : ℤ) : Bool :=
  match pages[idx.toNat]? with
  | some p => p.hasContent
  | none => false

/-- `PDFSaver._place_single_page` (lines 248–262) composed with the merge
guards of `_merge_page_with_transform`: pages outside `[0, len(pages))` are
not placed at all, pages without a content stream are skipped by the early
return at lines 430–432, and an in-range page with content contributes one
placement whose matrix is the cleaned fit matrix over the full sheet
rectangle `(0, 0, width_pt, height_pt)`. -/
def place_single_page (pages : List SourcePage) (page_idx : ℤ)
    (width_pt height_pt : ℚ) : List CTM :=
  if 0 ≤ page_idx ∧ page_idx < (pages.length : ℤ) then
    match pages[page_idx.toNat]? with
    | some p =>
      if p.hasContent then
        [clean_ctm (merge_fit_ctm p.width p.height 0 0 width_pt height_pt)]
      else []
    | none => []
  else []

/-- The Single-mode pass of `save_booklet` (lines 68–151 with
`mode = "single"`): one output sheet per layout entry, the layout being
`generate_single_page_layout` over the source page count, each sheet
carrying the placements of `_place_single_page`. -/
def save_single_sheets (pages : List SourcePage) (width_pt height_pt : ℚ) :
    List (List CTM) :=
  (generate_single_page_layout pages.length).map
    (fun idx => place_single_page pages idx width_pt height_pt)

/-! ## Shift conversion: vector path vs raster preview path -/

/-- Python's `int(...)` applied to a real value: truncation toward zero. -/
def pyInt (q : ℚ) : ℤ :=
  if 0 ≤ q then Int.floor q else Int.ceil q

/-- `_merge_page_with_transform`, line 350:
`shift_x_pt = transform.h_shift_mm * 72 / 25.4`. -/
def saver_shift_x_pt (h_shift_mm : ℚ) : ℚ := h_shift_mm * 72 / (254 / 10)

/-- `_merge_page_with_transform`, line 351:
`shift_y_pt = transform.v_shift_mm * 72 / 25.4` — note: no sign change. -/
def saver_shift_y_pt (v_shift_mm : ℚ) : ℚ := v_shift_mm * 72 / (254 / 10)

/-- `_merge_page_with_transform`, line 369: the vertical placement
position, `final_y = center_y + src_center_y * base_scale * abs(v_scale)
+ shift_y_pt` — the converted vertical shift enters with positive sign. -/
def saver_final_y (center_y src_center_y base_scale v_scale_abs v_shift_mm : ℚ) : ℚ :=
  center_y + src_center_y * base_scale * v_scale_abs + saver_shift_y_pt v_shift_mm

/-- `PDFRenderer._render_booklet_spread`, line 248 (identically at lines
286, 343, 383 and 436): `mm_to_px = (72.0 / 25.4) * zoom_factor`. -/
def renderer_mm_to_px (zoom_factor : ℚ) : ℚ := 72 / (254 / 10) * zoom_factor

/-- `PDFRenderer._render_booklet_spread`, line 249:
`h_shift_px = int(h_shift_mm * mm_to_px)`. -/
def renderer_h_shift_px (h_shift_mm zoom_factor : ℚ) : ℤ :=
  pyInt (h_shift_mm * renderer_mm_to_px zoom_factor)

/-- `PDFRenderer._render_booklet_spread`, line 250:
`v_shift_px = -int(v_shift_mm * mm_to_px)` — the raster path negates the
vertical shift (its pixel y axis points down). -/
def renderer_v_shift_px (v_shift_mm zoom_factor : ℚ) : ℤ :=
  -pyInt (v_shift_mm * renderer_mm_to_px zoom_factor)

/-! ## Save pass control flow (`PDFSaver.save_booklet`, lines 26–190) -/

/-- The operations of one save pass that go through the external library or
the file system and can raise: opening the source / creating the writer
(lines 62–63), `writer.add_page` per sheet (line 151), and serialising to
disk (lines 175–176).  A `some msg` entry makes the corresponding Python
operation raise an exception with text `msg`; everything the pass itself
computes is total. -/
structure SaveEnv where
  openFail : Option String := none
  addPageFail : ℕ → Option String := fun _ => none
  serializeFail : Option String := none

/-- `PDFSaver._place_booklet_spread` (lines 192–218) composed with the
merge guards: the left slot member is placed iff it is in range (the blank
sentinel `-1` fails `0 <= left_idx`) and its page has a content stream; the
right member additionally has an explicit `right_idx != -1` guard.  The
result lists the source indices actually merged onto the sheet; no path
raises. -/
def place_booklet_spread (pages : List SourcePage) (left_idx right_idx : ℤ) :
    List ℤ :=
  (if 0 ≤ left_idx ∧ left_idx < (pages.length : ℤ) ∧
      has_content_at pages left_idx = true then [left_idx] else []) ++
  (if right_idx ≠ -1 ∧ 0 ≤ right_idx ∧ right_idx < (pages.length : ℤ) ∧
      has_content_at pages right_idx = true then [right_idx] else [])

/-- The per-sheet loop of `save_booklet` (lines 71–158) on the booklet
path: each layout entry yields one output sheet with the placements of
`place_booklet_spread`; the only abort point inside the loop is the
external `writer.add_page` call, indexed here by the sheet number. -/
def write_sheets (env : SaveEnv) (pages : List SourcePage) :
    List (ℤ × ℤ) → ℕ → Except String (List (List ℤ))
  | [], _ => Except.ok []
  | entry :: rest, i =>
    let placed := place_booklet_spread pages entry.1 entry.2
    match env.addPageFail i with
    | some e => Except.error e
    | none =>
      match write_sheets env pages rest (i + 1) with
      | Except.ok sheets => Except.ok (placed :: sheets)
      | Except.error e => Except.error e

/-- `PDFSaver.save_booklet` (lines 26–190): the whole pass runs inside one
`try`; any exception is caught at lines 183–190 and reported as
`(False, "Save failed: " + str(e))`; a completed pass returns
`(True, None)`. -/
def save_booklet (env : SaveEnv) (pages : List SourcePage)
    (layout_map : List (ℤ × ℤ)) : Bool × Option String :=
  match env.openFail with
  | some e => (false, some ("Save failed: " ++ e))
  | none =>
    match write_sheets env pages layout_map 0 with
    | Except.error e => (false, some ("Save failed: " ++ e))
    | Except.ok _ =>
      match env.serializeFail with
      | some e => (false, some ("Save failed: " ++ e))
      | none => (true, none)

/-! ## Form XObject naming (`_merge_page_with_transform`, lines 475–477) -/

/-- Line 476: `xobj_name = f"/Fm{source_idx}"` — the registered resource
name is derived from the source page index alone. -/
def xobj_name (source_idx : ℕ) : String := "/Fm" ++ toString source_idx

/-- The names registered in one output sheet's `/Resources/XObject` table,
one per placement, in placement order (line 477). -/
def sheet_xobject_names (placements : List ℕ) : List String :=
  placements.map xobj_name

/-! ## Helper lemmas -/

/-- `Nat.toDigitsCore` accumulates digits in front of its accumulator. -/
lemma toDigitsCore_acc (b : ℕ) :
    ∀ (fuel n : ℕ) (ds : List Char),
      Nat.toDigitsCore b fuel n ds = Nat.toDigitsCore b fuel n [] ++ ds := by
  intro fuel
  induction fuel with
  | zero => intro n ds; simp [Nat.toDigitsCore]
  | succ fuel ih =>
    intro n ds
    simp only [Nat.toDigitsCore]
    by_cases h : n / b = 0
    · simp [h]
    · simp only [h, if_false]
      rw [ih (n / b) (Nat.digitChar (n % b) :: ds),
        ih (n / b) [Nat.digitChar (n % b)]]
      simp

/-- With enough fuel, the fuel amount does not matter (base 10). -/
lemma toDigitsCore_fuel (n : ℕ) :
    ∀ f₁ f₂ : ℕ, n < f₁ → n < f₂ →
      Nat.toDigitsCore 10 f₁ n [] = Nat.toDigitsCore 10 f₂ n [] := by
  induction n using Nat.strongRecOn with
  | _ n ih =>
    intro f₁ f₂ h₁ h₂
    match f₁, f₂ with
    | f₁ + 1, f₂ + 1 =>
      simp only [Nat.toDigitsCore]
      by_cases h : n / 10 = 0
      · simp [h]
      · simp only [h, if_false]
        rw [toDigitsCore_acc, toDigitsCore_acc 10 f₂,
          ih (n / 10) (by omega) f₁ f₂ (by omega) (by omega)]

/-- A one-digit number prints as its digit character. -/
lemma toDigits10_lt (n : ℕ) (h : n < 10) :
    Nat.toDigits 10 n = [Nat.digitChar n] := by
  simp [Nat.toDigits, Nat.toDigitsCore, Nat.div_eq_of_lt h, Nat.mod_eq_of_lt h]

/-- A multi-digit number prints as its leading digits followed by its last
digit. -/
lemma toDigits10_ge (n : ℕ) (h : 10 ≤ n) :
    Nat.toDigits 10 n = Nat.toDigits 10 (n / 10) ++ [Nat.digitChar (n % 10)] := by
  show Nat.toDigitsCore 10 (n + 1) n [] = _
  simp only [Nat.toDigitsCore]
  have hne : ¬ n / 10 = 0 := by omega
  simp only [hne, if_false]
  rw [toDigitsCore_acc, toDigitsCore_fuel (n / 10) n (n / 10 + 1) (by omega) (by omega)]
  rfl

/-- Decimal prints are never empty. -/
lemma toDigits10_ne_nil (n : ℕ) : Nat.toDigits 10 n ≠ [] := by
  by_cases h : n < 10
  · rw [toDigits10_lt n h]; simp
  · rw [toDigits10_ge n (by omega)]; simp

/-- `Nat.digitChar` is injective below 10. -/
lemma digitChar_inj_lt : ∀ m, m < 10 → ∀ n, n < 10 →
    Nat.digitChar m = Nat.digitChar n → m = n := by decide

/-- Decimal digit lists are injective in the printed number. -/
lemma toDigits10_inj : ∀ m n : ℕ, Nat.toDigits 10 m = Nat.toDigits 10 n → m = n := by
  intro m
  induction m using Nat.strongRecOn with
  | _ m ih =>
    intro n h
    by_cases hm : m < 10 <;> by_cases hn : n < 10
    · rw [toDigits10_lt m hm, toDigits10_lt n hn] at h
      exact digitChar_inj_lt m hm n hn (List.cons.injEq .. ▸ h).1
    · rw [toDigits10_lt m hm, toDigits10_ge n (by omega)] at h
      have hnil : Nat.toDigits 10 (n / 10) = [] := by
        simpa using congrArg List.length h
      exact absurd hnil (toDigits10_ne_nil (n / 10))
    · rw [toDigits10_ge m (by omega), toDigits10_lt n hn] at h
      have hnil : Nat.toDigits 10 (m / 10) = [] := by
        simpa using congrArg List.length h
      exact absurd hnil (toDigits10_ne_nil (m / 10))
    · rw [toDigits10_ge m (by omega), toDigits10_ge n (by omega)] at h
      have hparts := List.append_inj' h (by simp)
      have h1 : m / 10 = n / 10 := ih (m / 10) (by omega) (n / 10) hparts.1
      have h2 : m % 10 = n % 10 :=
        digitChar_inj_lt (m % 10) (by omega) (n % 10) (by omega)
          (List.cons.injEq .. ▸ hparts.2).1
      omega

/-- `Nat.repr` (decimal printing) is injective. -/
lemma nat_repr_inj {m n : ℕ} (h : Nat.repr m = Nat.repr n) : m = n := by
  apply toDigits10_inj
  have := congrArg String.data h
  simpa [Nat.repr, List.asString] using this

/-- Length of an interleaved two-slot list built over `List.range`. -/
lemma pair_flatMap_length {α : Type} (s : ℕ) (f g : ℕ → α) :
    ((List.range s).flatMap (fun i => [f i, g i])).length = 2 * s := by
  induction s with
  | zero => simp
  | succ s ih => rw [List.range_succ]; simp [ih]; omega

/-- Element access in an interleaved two-slot list built over
`List.range`: position `2*k` holds `f k` and position `2*k + 1` holds
`g k`. -/
lemma pair_flatMap_getElem {α : Type} (s : ℕ) (f g : ℕ → α) (k : ℕ) (hk : k < s) :
    (((List.range s).flatMap (fun i => [f i, g i]))[2 * k]? = some (f k)) ∧
    (((List.range s).flatMap (fun i => [f i, g i]))[2 * k + 1]? = some (g k)) := by
  induction s with
  | zero => omega
  | succ s ih =>
    rw [List.range_succ, List.flatMap_append]
    rcases Nat.lt_or_ge k s with h | h
    · have hlen := pair_flatMap_length s f g
      constructor
      · rw [List.getElem?_append, if_pos (by omega)]
        exact (ih h).1
      · rw [List.getElem?_append, if_pos (by omega)]
        exact (ih h).2
    · have hk' : k = s := by omega
      subst hk'
      have hlen := pair_flatMap_length k f g
      constructor
      · rw [List.getElem?_append, if_neg (by omega)]
        simp [hlen]
      · rw [List.getElem?_append, if_neg (by omega)]
        simp [hlen]

/-- Occurrence count of `j` among the page indices named by the first `s`
sheets of a booklet layout over padded count `p`: the low members
`2*i, 2*i + 1` cover `[0, 2*s)` once, and the high members
`p - 1 - 2*i, p - 1 - (2*i + 1)` cover `[p - 2*s, p)` once. -/
lemma booklet_members_count (p : ℤ) (s : ℕ) (j : ℤ) :
    ((((List.range s).flatMap (fun i =>
          [((p : ℤ) - 1 - 2 * (i : ℤ), 2 * (i : ℤ)),
           (2 * (i : ℤ) + 1, (p : ℤ) - 1 - (2 * (i : ℤ) + 1))])).flatMap
        (fun q => [q.1, q.2])).count j) =
      (if 0 ≤ j ∧ j < 2 * (s : ℤ) then 1 else 0) +
      (if p - 2 * (s : ℤ) ≤ j ∧ j < p then 1 else 0) := by
  induction s with
  | zero =>
    simp only [List.range_zero, List.flatMap_nil, List.count_nil,
      Nat.cast_zero, mul_zero, sub_zero]
    split_ifs <;> omega
  | succ s ih =>
    rw [List.range_succ, List.flatMap_append, List.flatMap_append,
      List.count_append, ih]
    simp only [List.flatMap_cons, List.flatMap_nil, List.append_nil,
      List.cons_append, List.nil_append, List.count_cons, List.count_nil,
      beq_iff_eq]
    push_cast
    split_ifs <;> omega

/-- The snapping tolerance is positive and far below the branch targets. -/
lemma snapEps_small : 0 < snapEps ∧ snapEps < 1 / 2 := by
  constructor <;> norm_num [snapEps]

/-- Snapping an exact `0` keeps it. -/
lemma snapValue_zero : snapValue 0 = 0 := by
  have h := snapEps_small
  rw [snapValue, if_pos (by rw [abs_zero]; exact h.1)]

/-- Snapping an exact `1` keeps it. -/
lemma snapValue_one : snapValue 1 = 1 := by
  have h := snapEps_small
  rw [snapValue, if_neg (by rw [abs_one]; linarith [h.2]),
    if_pos (by norm_num [h.1])]

/-- Snapping an exact `-1` keeps it. -/
lemma snapValue_neg_one : snapValue (-1) = -1 := by
  have h := snapEps_small
  rw [snapValue, if_neg (by rw [abs_neg, abs_one]; linarith [h.2]),
    if_neg (by rw [show (-1 : ℚ) - 1 = -2 by norm_num, abs_neg]; norm_num; linarith [h.2]),
    if_pos (by norm_num [h.1])]

/-- A value at distance at least `snapEps` from `0`, `1` and `-1` is kept. -/
lemma snapValue_far (v : ℚ) (h0 : ¬ |v| < snapEps) (h1 : ¬ |v - 1| < snapEps)
    (h2 : ¬ |v + 1| < snapEps) : snapValue v = v := by
  rw [snapValue, if_neg h0, if_neg h1, if_neg h2]

/-- Snapping is idempotent coefficient-wise. -/
lemma snapValue_idem (v : ℚ) : snapValue (snapValue v) = snapValue v := by
  by_cases b0 : |v| < snapEps
  · have hv : snapValue v = 0 := by rw [snapValue, if_pos b0]
    rw [hv, snapValue_zero]
  · by_cases b1 : |v - 1| < snapEps
    · have hv : snapValue v = 1 := by rw [snapValue, if_neg b0, if_pos b1]
      rw [hv, snapValue_one]
    · by_cases b2 : |v + 1| < snapEps
      · have hv : snapValue v = -1 := by
          rw [snapValue, if_neg b0, if_neg b1, if_pos b2]
        rw [hv, snapValue_neg_one]
      · have hv := snapValue_far v b0 b1 b2
        rw [hv]
        exact hv

/-- When no `add_page` call fails, the sheet loop completes and produces
one sheet per layout entry, carrying exactly the placements that survive
the skip guards. -/
lemma write_sheets_ok (env : SaveEnv) (pages : List SourcePage)
    (hadd : ∀ i, env.addPageFail i = none) :
    ∀ (layout_map : List (ℤ × ℤ)) (i : ℕ),
      write_sheets env pages layout_map i =
        Except.ok (layout_map.map
          (fun entry => place_booklet_spread pages entry.1 entry.2)) := by
  intro layout_map
  induction layout_map with
  | nil => intro i; rfl
  | cons entry rest ih =>
    intro i
    simp only [write_sheets, hadd i, ih (i + 1), List.map_cons]

/-! ## Claim theorems -/

/-- **C1**: for every non-negative page count `n`, the booklet layout pads
`n` to `padded = n + (4 - n % 4) % 4` and emits, for each sheet index
`i < padded / 4`, the front pair `(padded - 1 - 2*i, 2*i)` at position
`2*i` and the back pair `(2*i + 1, padded - 1 - (2*i + 1))` at position
`2*i + 1`, so the slot list has length `padded / 2`; for `n = 8` the slot
list is `[(7,0), (1,6), (5,2), (3,4)]`. -/
theorem booklet_layout_spec (n : ℕ) :
    padded_page_count n = n + (4 - n % 4) % 4 ∧
    (generate_booklet_layout n).length = padded_page_count n / 2 ∧
    (∀ i, i < padded_page_count n / 4 →
      (generate_booklet_layout n)[2 * i]? =
        some ((padded_page_count n : ℤ) - 1 - 2 * (i : ℤ), 2 * (i : ℤ)) ∧
      (generate_booklet_layout n)[2 * i + 1]? =
        some (2 * (i : ℤ) + 1,
          (padded_page_count n : ℤ) - 1 - (2 * (i : ℤ) + 1))) ∧
    generate_booklet_layout 8 = [(7, 0), (1, 6), (5, 2), (3, 4)] := by
  have hmod : padded_page_count n % 4 = 0 := by
    unfold padded_page_count padding_needed
    omega
  refine ⟨rfl, ?_, ?_, by decide⟩
  · have hl : (generate_booklet_layout n).length =
        2 * (padded_page_count n / 4) :=
      pair_flatMap_length (padded_page_count n / 4) _ _
    omega
  · intro i hi
    exact pair_flatMap_getElem (padded_page_count n / 4)
      (fun i => ((padded_page_count n : ℤ) - 1 - 2 * (i : ℤ), 2 * (i : ℤ)))
      (fun i => (2 * (i : ℤ) + 1,
        (padded_page_count n : ℤ) - 1 - (2 * (i : ℤ) + 1))) i hi

/-- Witness for C1: sheet `i = 1` of the 8-page booklet layout. -/
theorem booklet_layout_spec_witness :
    (generate_booklet_layout 8)[2 * 1]? = some (5, 2) ∧
    (generate_booklet_layout 8)[2 * 1 + 1]? = some (3, 4) := by
  have h := (booklet_layout_spec 8).2.2.1 1 (by decide)
  exact ⟨h.1.trans (by decide), h.2.trans (by decide)⟩

/-- **C9**: for every non-negative page count `n`, the calendar layout is
the list of slots `(i, i+1 if i+1 < n else -1)` for `i = 0, 2, 4, …` below
`n` (position `k` holds the slot for `i = 2*k`); for `n = 5` it equals
`[(0,1), (2,3), (4,-1)]`. -/
theorem calendar_layout_spec (n : ℕ) :
    (generate_calendar_layout n).length = (n + 1) / 2 ∧
    (∀ k, k < (n + 1) / 2 →
      (generate_calendar_layout n)[k]? =
        some (((2 * k : ℕ) : ℤ),
          if 2 * k + 1 < n then ((2 * k + 1 : ℕ) : ℤ) else -1)) ∧
    generate_calendar_layout 5 = [(0, 1), (2, 3), (4, -1)] := by
  refine ⟨?_, ?_, by decide⟩
  · unfold generate_calendar_layout
    rw [List.length_map, List.length_range]
  · intro k hk
    unfold generate_calendar_layout
    rw [List.getElem?_map, List.getElem?_range hk]
    rfl

/-- Witness for C9: slot `k = 2` of the 5-page calendar layout. -/
theorem calendar_layout_spec_witness :
    (generate_calendar_layout 5)[2]? = some (4, -1) := by
  have h := (calendar_layout_spec 5).2.1 2 (by decide)
  exact h.trans (by decide)

/-- **C10**: for every non-negative page count `n`, every index `j` of the
padded range `[0, padded)` appears exactly once among the members of the
booklet slot pairs — the imposition neither drops nor duplicates a page. -/
theorem booklet_layout_permutation (n : ℕ) (j : ℤ) (h0 : 0 ≤ j)
    (h1 : j < (padded_page_count n : ℤ)) :
    ((generate_booklet_layout n).flatMap (fun q => [q.1, q.2])).count j = 1 := by
  have hmod : padded_page_count n % 4 = 0 := by
    unfold padded_page_count padding_needed
    omega
  have hc' : ((generate_booklet_layout n).flatMap (fun q => [q.1, q.2])).count j =
      (if 0 ≤ j ∧ j < 2 * ((padded_page_count n / 4 : ℕ) : ℤ) then 1 else 0) +
      (if (padded_page_count n : ℤ) - 2 * ((padded_page_count n / 4 : ℕ) : ℤ) ≤ j ∧
          j < (padded_page_count n : ℤ) then 1 else 0) :=
    booklet_members_count (padded_page_count n : ℤ) (padded_page_count n / 4) j
  rw [hc']
  split_ifs <;> omega

/-- Witness for C10: page index `3` occurs exactly once in the 8-page
booklet layout. -/
theorem booklet_layout_permutation_witness :
    ((generate_booklet_layout 8).flatMap (fun q => [q.1, q.2])).count 3 = 1 :=
  booklet_layout_permutation 8 3 (by decide) (by decide)

/-- **C8**: every page index outside `[0, total_pages)` — including the
blank sentinel `-1` — resolves to the identity transform (all shifts 0,
all scales 100, rotation 0, mirrors false), regardless of the default,
domain or override transforms stored. -/
theorem out_of_range_resolves_identity (m : PageTransformManager) (i : ℤ)
    (h : i < 0 ∨ (m.total_pages : ℤ) ≤ i) :
    get_transform_for_page m i = Transform.identity ∧
    Transform.identity = ⟨0, 0, 100, 0, false, false, 100, 100⟩ := by
  constructor
  · rw [get_transform_for_page, if_pos h]
  · rfl

/-- A manager with every kind of transform stored, including explicit
overrides at the out-of-range keys `-1` and `7`. -/
def mgrOutOfRange : PageTransformManager :=
  { total_pages := 5
    global_transform := { h_shift_mm := 9 }
    page_transforms := fun j => if j = -1 ∨ j = 7 then some { h_shift_mm := 1 } else none
    even_pages_transform := some { v_shift_mm := 2 }
    odd_pages_transform := some { v_shift_mm := 3 } }

/-- Witness for C8: the blank sentinel `-1` and the past-the-end index `7`
both resolve to the identity transform even though overrides are stored at
those keys and the default/domain transforms are non-trivial. -/
theorem out_of_range_resolves_identity_witness :
    get_transform_for_page mgrOutOfRange (-1) = Transform.identity ∧
    get_transform_for_page mgrOutOfRange 7 = Transform.identity :=
  ⟨(out_of_range_resolves_identity mgrOutOfRange (-1) (Or.inl (by decide))).1,
   (out_of_range_resolves_identity mgrOutOfRange 7 (Or.inr (by decide))).1⟩

/-- **C2 (amended)**: for every *in-range* page index, an explicit
per-page override resolves to the override composed with the default, a
parity-matching domain transform (with no override present) resolves to
the domain transform composed with the default, and the composition adds
shifts, multiplies scale percentages as `a * b / 100`, adds rotations and
XORs mirror flags; in particular shifts 3 and 5 compose to 8, scales 200
and 50 compose to 100, and two `true` h-mirrors compose to `false`. -/
theorem resolve_composes_with_default (m : PageTransformManager) (i : ℤ)
    (h0 : 0 ≤ i) (h1 : i < (m.total_pages : ℤ)) :
    (∀ t, m.page_transforms i = some t →
      get_transform_for_page m i = composeWithGlobal t m.global_transform) ∧
    (m.page_transforms i = none → (i + 1) % 2 = 0 →
      ∀ t, m.even_pages_transform = some t →
        get_transform_for_page m i = composeWithGlobal t m.global_transform) ∧
    (m.page_transforms i = none → (i + 1) % 2 = 1 →
      ∀ t, m.odd_pages_transform = some t →
        get_transform_for_page m i = composeWithGlobal t m.global_transform) ∧
    (∀ t g : Transform,
      (composeWithGlobal t g).h_shift_mm = t.h_shift_mm + g.h_shift_mm ∧
      (composeWithGlobal t g).v_shift_mm = t.v_shift_mm + g.v_shift_mm ∧
      (composeWithGlobal t g).scale_percent = t.scale_percent * g.scale_percent / 100 ∧
      (composeWithGlobal t g).h_scale_percent =
        t.h_scale_percent * g.h_scale_percent / 100 ∧
      (composeWithGlobal t g).v_scale_percent =
        t.v_scale_percent * g.v_scale_percent / 100 ∧
      (composeWithGlobal t g).rotation_deg = t.rotation_deg + g.rotation_deg ∧
      (composeWithGlobal t g).h_flip = xor t.h_flip g.h_flip ∧
      (composeWithGlobal t g).v_flip = xor t.v_flip g.v_flip) ∧
    (composeWithGlobal { h_shift_mm := 3 } { h_shift_mm := 5 }).h_shift_mm = 8 ∧
    (composeWithGlobal { scale_percent := 200 } { scale_percent := 50 }).scale_percent = 100 ∧
    (composeWithGlobal { h_flip := true } { h_flip := true }).h_flip = false := by
  have hrange : ¬ (i < 0 ∨ (m.total_pages : ℤ) ≤ i) := by omega
  refine ⟨?_, ?_, ?_, ?_, ?_, ?_, ?_⟩
  · intro t ht
    rw [get_transform_for_page, if_neg hrange, ht]
  · intro hn hpar t ht
    rw [get_transform_for_page, if_neg hrange, hn]
    rw [if_pos hpar, ht]
  · intro hn hpar t ht
    rw [get_transform_for_page, if_neg hrange, hn]
    rw [if_neg (by omega), ht]
  · intro t g
    refine ⟨rfl, rfl, rfl, rfl, rfl, rfl, ?_, ?_⟩
    · show (t.h_flip != g.h_flip) = xor t.h_flip g.h_flip
      cases t.h_flip <;> cases g.h_flip <;> rfl
    · show (t.v_flip != g.v_flip) = xor t.v_flip g.v_flip
      cases t.v_flip <;> cases g.v_flip <;> rfl
  · show (3 : ℚ) + 5 = 8
    norm_num
  · show (200 : ℚ) * 50 / 100 = 100
    norm_num
  · rfl

/-- A manager whose page `0` has an explicit override, alongside a
non-trivial default transform. -/
def mgrOverride : PageTransformManager :=
  { total_pages := 4
    global_transform := { h_shift_mm := 5, scale_percent := 50, h_flip := true }
    page_transforms := fun j =>
      if j = 0 then some { h_shift_mm := 3, scale_percent := 200, h_flip := true }
      else none }

/-- Witness for C2 (amended): page `0` of `mgrOverride` resolves to the
override composed with the default. -/
theorem resolve_composes_with_default_witness :
    get_transform_for_page mgrOverride 0 =
      composeWithGlobal { h_shift_mm := 3, scale_percent := 200, h_flip := true }
        mgrOverride.global_transform :=
  (resolve_composes_with_default mgrOverride 0 (by decide) (by decide)).1 _ rfl

/-- A manager whose override sits at the out-of-range key `5` while the
document has a single page. -/
def mgrStaleOverride : PageTransformManager :=
  { total_pages := 1
    global_transform := { h_shift_mm := 5 }
    page_transforms := fun j => if j = 5 then some { h_shift_mm := 3 } else none }

/-- Counterexample to C2 as stated: an explicit per-page override is
present for page index `5`, yet resolving the transform does *not* return
the override composed with the default — the out-of-range guard returns the
identity transform first. -/
theorem resolve_override_not_always_composed :
    mgrStaleOverride.page_transforms 5 = some { h_shift_mm := 3 } ∧
    get_transform_for_page mgrStaleOverride 5 ≠
      composeWithGlobal { h_shift_mm := 3 } mgrStaleOverride.global_transform := by
  refine ⟨rfl, ?_⟩
  intro h
  have h8 : (composeWithGlobal { h_shift_mm := 3 }
      mgrStaleOverride.global_transform).h_shift_mm = 8 := by
    show (3 : ℚ) + 5 = 8
    norm_num
  have h0 : (get_transform_for_page mgrStaleOverride 5).h_shift_mm = 0 := by
    rw [get_transform_for_page, if_pos]
    · rfl
    · right
      show ((1 : ℕ) : ℤ) ≤ 5
      decide
  rw [h, h8] at h0
  norm_num at h0

/-- **C5**: the matrix cleanup snaps every coefficient within `1e-10` of
`0`, `1` or `-1` to that exact value, leaves every other coefficient
unchanged, and is idempotent: cleaning an already-cleaned matrix returns
the same matrix. -/
theorem ctm_cleanup_spec :
    (∀ v : ℚ,
      (|v - 0| < snapEps → snapValue v = 0) ∧
      (|v - 1| < snapEps → snapValue v = 1) ∧
      (|v - (-1)| < snapEps → snapValue v = -1) ∧
      (¬ |v - 0| < snapEps → ¬ |v - 1| < snapEps → ¬ |v - (-1)| < snapEps →
        snapValue v = v)) ∧
    (∀ m : CTM, clean_ctm (clean_ctm m) = clean_ctm m) := by
  have heps := snapEps_small
  constructor
  · intro v
    refine ⟨?_, ?_, ?_, ?_⟩
    · intro h
      rw [sub_zero] at h
      rw [snapValue, if_pos h]
    · intro h
      have h0 : ¬ |v| < snapEps := by
        rw [abs_lt] at h ⊢
        intro hc
        rcases h with ⟨ha, hb⟩
        rcases hc with ⟨hc, hd⟩
        linarith [heps.2]
      rw [snapValue, if_neg h0, if_pos h]
    · intro h
      rw [sub_neg_eq_add] at h
      have h0 : ¬ |v| < snapEps := by
        rw [abs_lt] at h ⊢
        intro hc
        rcases h with ⟨ha, hb⟩
        rcases hc with ⟨hc, hd⟩
        linarith [heps.2]
      have h1 : ¬ |v - 1| < snapEps := by
        rw [abs_lt] at h ⊢
        intro hc
        rcases h with ⟨ha, hb⟩
        rcases hc with ⟨hc, hd⟩
        linarith [heps.2]
      rw [snapValue, if_neg h0, if_neg h1, if_pos h]
    · intro h0 h1 h2
      rw [sub_zero] at h0
      rw [sub_neg_eq_add] at h2
      exact snapValue_far v h0 h1 h2
  · intro m
    show clean_ctm ⟨_, _, _, _, _, _⟩ = _
    rw [clean_ctm, clean_ctm]
    simp only [snapValue_idem]

/-- Witness for C5: a value near `1` snaps to `1`, a plain value is kept,
and cleaning a concrete already-cleaned matrix is a no-op. -/
theorem ctm_cleanup_spec_witness :
    snapValue (1 + 1 / 10 ^ 11) = 1 ∧ snapValue (1 / 2) = 1 / 2 ∧
    clean_ctm (clean_ctm ⟨1, 0, 0, 1, 5, 7⟩) = clean_ctm ⟨1, 0, 0, 1, 5, 7⟩ := by
  refine ⟨?_, ?_, ctm_cleanup_spec.2 ⟨1, 0, 0, 1, 5, 7⟩⟩
  · apply (ctm_cleanup_spec.1 (1 + 1 / 10 ^ 11)).2.1
    rw [show (1 : ℚ) + 1 / 10 ^ 11 - 1 = 1 / 10 ^ 11 by norm_num]
    rw [abs_of_nonneg (by norm_num)]
    norm_num [snapEps]
  · apply (ctm_cleanup_spec.1 (1 / 2)).2.2.2
    · rw [sub_zero, abs_of_nonneg (by norm_num)]
      norm_num [snapEps]
    · rw [show (1 : ℚ) / 2 - 1 = -(1 / 2) by norm_num, abs_neg,
        abs_of_nonneg (by norm_num)]
      norm_num [snapEps]
    · rw [sub_neg_eq_add, abs_of_nonneg (by norm_num)]
      norm_num [snapEps]

/-- **C6**: slot members that are blank (`-1`), out of the source's page
range, or whose page has no content stream are skipped without error and
the pass completes — every placed member satisfies all three guards; a
failure while creating the output document, writing a sheet, or
serialising aborts the whole pass with a single `(False, message)` result;
otherwise `(True, None)` is returned, and the success flag and the error
message are always consistent (no partial-success state). -/
theorem save_booklet_failure_semantics (env : SaveEnv) (pages : List SourcePage)
    (layout_map : List (ℤ × ℤ)) :
    ((env.openFail = none ∧ (∀ i, env.addPageFail i = none) ∧
        env.serializeFail = none) →
      save_booklet env pages layout_map = (true, none) ∧
      write_sheets env pages layout_map 0 =
        Except.ok (layout_map.map
          (fun entry => place_booklet_spread pages entry.1 entry.2))) ∧
    (∀ left_idx right_idx : ℤ, ∀ idx ∈ place_booklet_spread pages left_idx right_idx,
      0 ≤ idx ∧ idx < (pages.length : ℤ) ∧ has_content_at pages idx = true) ∧
    (∀ e, env.openFail = some e →
      save_booklet env pages layout_map = (false, some ("Save failed: " ++ e))) ∧
    (∀ e, env.openFail = none → write_sheets env pages layout_map 0 = Except.error e →
      save_booklet env pages layout_map = (false, some ("Save failed: " ++ e))) ∧
    (∀ e, env.openFail = none → (∀ i, env.addPageFail i = none) →
      env.serializeFail = some e →
      save_booklet env pages layout_map = (false, some ("Save failed: " ++ e))) ∧
    ((save_booklet env pages layout_map).1 = false ↔
      (save_booklet env pages layout_map).2 ≠ none) := by
  refine ⟨?_, ?_, ?_, ?_, ?_, ?_⟩
  · rintro ⟨ho, ha, hs⟩
    have hw := write_sheets_ok env pages ha layout_map 0
    refine ⟨?_, hw⟩
    rw [save_booklet, ho, hw, hs]
  · intro left_idx right_idx idx hidx
    rw [place_booklet_spread] at hidx
    rcases List.mem_append.mp hidx with h | h <;> [skip; skip] <;>
      · split_ifs at h with hg
        · rcases List.mem_singleton.mp h with rfl
          try exact ⟨hg.1, hg.2.1, hg.2.2⟩
          try exact ⟨hg.2.1, hg.2.2.1, hg.2.2.2⟩
        · cases h
  · intro e he
    rw [save_booklet, he]
  · intro e ho hw
    rw [save_booklet, ho, hw]
  · intro e ho ha hs
    rw [save_booklet, ho, write_sheets_ok env pages ha layout_map 0, hs]
  · rw [save_booklet]
    rcases henv : env.openFail with _ | e
    · rcases hw : write_sheets env pages layout_map 0 with e | sheets
      · simp
      · rcases hs : env.serializeFail with _ | e
        · simp
        · simp
    · simp

/-- Witness for C6: with no external failures, a pass over a layout whose
slots are blank, out of range, and contentless completes with
`(True, None)` and skips exactly those members. -/
theorem save_booklet_failure_semantics_witness :
    save_booklet {} [⟨612, 792, false⟩, ⟨612, 792, true⟩] [(-1, 5), (0, 1)] =
      (true, none) ∧
    write_sheets {} [⟨612, 792, false⟩, ⟨612, 792, true⟩] [(-1, 5), (0, 1)] 0 =
      Except.ok [[], [1]] := by
  have h := (save_booklet_failure_semantics {}
    [⟨612, 792, false⟩, ⟨612, 792, true⟩] [(-1, 5), (0, 1)]).1
    ⟨rfl, fun _ => rfl, rfl⟩
  refine ⟨h.1, h.2.trans ?_⟩
  rfl

/-- Counterexample to C3 as stated: for a vertical shift of `+1` mm, the
vector emission path produces the *positive* point offset `360/127`
(applied with positive sign in `final_y`), while the raster preview path
produces the *negative* pixel offset `-2` — the vector path does not invert
the vertical shift's sign, so it does not use the same numeric sign
convention as the raster path. -/
theorem saver_shift_sign_not_inverted :
    saver_shift_y_pt 1 = 360 / 127 ∧
    0 < saver_shift_y_pt 1 ∧
    saver_final_y 0 0 1 1 1 = saver_shift_y_pt 1 ∧
    renderer_v_shift_px 1 1 = -2 ∧
    renderer_v_shift_px 1 1 < 0 ∧
    saver_shift_y_pt 1 ≠ -(1 * 72 / (254 / 10)) := by
  have h1 : saver_shift_y_pt 1 = 360 / 127 := by
    rw [saver_shift_y_pt]
    norm_num
  have h2 : renderer_v_shift_px 1 1 = -2 := by
    rw [renderer_v_shift_px, renderer_mm_to_px, pyInt, if_pos (by norm_num)]
    norm_num
  refine ⟨h1, by rw [h1]; norm_num, ?_, h2, by rw [h2]; norm_num, ?_⟩
  · rw [saver_final_y]
    norm_num
  · rw [h1]
    norm_num

/-- **C3 (amended)**: both paths convert shifts from millimetres to output
units through the same factor `72 / 25.4`; the vector path applies the
vertical shift with its sign *unchanged* (PDF's y axis points up, already
matching the UI's up-is-positive convention), while the raster preview
path *negates* the vertical shift (its pixel y axis points down): at zoom
factor `1` the renderer's pixel offsets are exactly the truncation of the
saver's point offsets, same-signed horizontally and opposite-signed
vertically. -/
theorem shift_conversion_spec (shift_mm : ℚ) :
    saver_shift_x_pt shift_mm = shift_mm * 72 / (254 / 10) ∧
    saver_shift_y_pt shift_mm = shift_mm * 72 / (254 / 10) ∧
    (∀ center_y src_center_y base_scale v_scale_abs : ℚ,
      saver_final_y center_y src_center_y base_scale v_scale_abs shift_mm =
        center_y + src_center_y * base_scale * v_scale_abs +
          saver_shift_y_pt shift_mm) ∧
    renderer_h_shift_px shift_mm 1 = pyInt (saver_shift_x_pt shift_mm) ∧
    renderer_v_shift_px shift_mm 1 = -pyInt (saver_shift_y_pt shift_mm) := by
  have harg : shift_mm * renderer_mm_to_px 1 = shift_mm * 72 / (254 / 10) := by
    rw [renderer_mm_to_px]
    ring
  refine ⟨rfl, rfl, fun _ _ _ _ => rfl, ?_, ?_⟩
  · rw [renderer_h_shift_px, harg, saver_shift_x_pt]
  · rw [renderer_v_shift_px, harg, saver_shift_y_pt]

/-- **C4 (amended)**: a Single-mode save of an `n`-page source whose pages
all have content, with identity transforms, produces exactly `n` output
sheets, each holding exactly one placement; the placement's cleaned matrix
is diagonal and scales the page uniformly by the fit scale
`min(targetW/srcW, targetH/srcH)` — except that a fit scale within `0.001`
of `1` is replaced by exactly `1` (translation only), and the coefficient
additionally passes the `1e-10` snapping step. -/
theorem single_save_fit_scale (pages : List SourcePage) (width_pt height_pt : ℚ)
    (hc : ∀ p ∈ pages, p.hasContent = true) :
    (save_single_sheets pages width_pt height_pt).length = pages.length ∧
    (∀ (k : ℕ) (p : SourcePage), pages[k]? = some p →
      (save_single_sheets pages width_pt height_pt)[k]? =
        some [clean_ctm (merge_fit_ctm p.width p.height 0 0 width_pt height_pt)]) ∧
    (∀ src_width src_height : ℚ,
      (clean_ctm (merge_fit_ctm src_width src_height 0 0 width_pt height_pt)).a =
        snapValue
          (if |fit_base_scale src_width src_height width_pt height_pt - 1| < 1 / 1000
           then 1
           else fit_base_scale src_width src_height width_pt height_pt) ∧
      (clean_ctm (merge_fit_ctm src_width src_height 0 0 width_pt height_pt)).d =
        (clean_ctm (merge_fit_ctm src_width src_height 0 0 width_pt height_pt)).a ∧
      (clean_ctm (merge_fit_ctm src_width src_height 0 0 width_pt height_pt)).b = 0 ∧
      (clean_ctm (merge_fit_ctm src_width src_height 0 0 width_pt height_pt)).c = 0) := by
  refine ⟨?_, ?_, ?_⟩
  · unfold save_single_sheets generate_single_page_layout
    rw [List.length_map, List.length_map, List.length_range]
  · intro k p hp
    have hk : k < pages.length := by
      by_contra hcon
      rw [List.getElem?_eq_none (by omega)] at hp
      cases hp
    have hsheet : (save_single_sheets pages width_pt height_pt)[k]? =
        some (place_single_page pages (k : ℤ) width_pt height_pt) := by
      unfold save_single_sheets generate_single_page_layout
      rw [List.getElem?_map, List.getElem?_map, List.getElem?_range hk]
      rfl
    rw [hsheet]
    have hguard : (0 : ℤ) ≤ (k : ℤ) ∧ (k : ℤ) < (pages.length : ℤ) :=
      ⟨Int.natCast_nonneg k, by exact_mod_cast hk⟩
    have hmem : p ∈ pages := by
      rw [← List.get?_eq_getElem?] at hp
      exact List.get?_mem hp
    rw [place_single_page, if_pos hguard, Int.toNat_natCast, hp]
    show some (if p.hasContent = true
        then [clean_ctm (merge_fit_ctm p.width p.height 0 0 width_pt height_pt)]
        else []) = _
    rw [hc p hmem, if_pos rfl]
  · intro src_width src_height
    simp only [merge_fit_ctm, fit_base_scale, sub_zero]
    by_cases hs : |min (width_pt / src_width) (height_pt / src_height) - 1| < 1 / 1000
    · rw [if_pos hs, if_pos hs]
      exact ⟨rfl, rfl, snapValue_zero, snapValue_zero⟩
    · rw [if_neg hs, if_neg hs]
      refine ⟨?_, rfl, ?_, ?_⟩
      · show snapValue (1 * min (width_pt / src_width) (height_pt / src_height)) =
          snapValue (min (width_pt / src_width) (height_pt / src_height))
        rw [one_mul]
      · show snapValue (0 * min (width_pt / src_width) (height_pt / src_height)) = 0
        rw [zero_mul]
        exact snapValue_zero
      · show snapValue (0 * min (width_pt / src_width) (height_pt / src_height)) = 0
        rw [zero_mul]
        exact snapValue_zero

/-- Witness for C4 (amended): a one-page source with content produces one
sheet whose single placement is the cleaned fit matrix. -/
theorem single_save_fit_scale_witness :
    (save_single_sheets [⟨100, 100, true⟩] 200 300).length = 1 ∧
    (save_single_sheets [⟨100, 100, true⟩] 200 300)[0]? =
      some [clean_ctm (merge_fit_ctm 100 100 0 0 200 300)] := by
  have h := single_save_fit_scale [⟨100, 100, true⟩] 200 300
    (by
      intro p hp
      rcases List.mem_singleton.mp hp with rfl
      rfl)
  exact ⟨h.1, h.2.1 0 ⟨100, 100, true⟩ rfl⟩

/-- Counterexample to C4 as stated: a 1-page source of size `1000 × 1000`
saved in Single mode onto `1000.5 × 1000.5` sheets with identity transforms
has fit scale `2001/2000 ≠ 1`, yet the emitted placement matrix is the
identity matrix (scale exactly `1`): the `|base_scale - 1| < 0.001` branch
replaces the fit scale by a pure translation. -/
theorem single_save_near_one_not_fit_scale :
    save_single_sheets [⟨1000, 1000, true⟩] (10005 / 10) (10005 / 10) =
      [[CTM.identity]] ∧
    fit_base_scale 1000 1000 (10005 / 10) (10005 / 10) = 2001 / 2000 ∧
    CTM.identity.a = 1 ∧ ((2001 : ℚ) / 2000) ≠ 1 := by
  have hmerge : merge_fit_ctm 1000 1000 0 0 (10005 / 10) (10005 / 10) =
      CTM.identity.translate 0 0 := by
    simp only [merge_fit_ctm, sub_zero, min_self]
    rw [if_pos]
    rw [abs_sub_lt_iff]
    constructor <;> norm_num
  have hclean : clean_ctm (CTM.identity.translate 0 0) = CTM.identity := by
    show clean_ctm ⟨1, 0, 0, 1, 0 + 0, 0 + 0⟩ = CTM.identity
    rw [show (0 : ℚ) + 0 = 0 by norm_num]
    show (⟨snapValue 1, snapValue 0, snapValue 0,
      snapValue 1, snapValue 0, snapValue 0⟩ : CTM) = CTM.identity
    rw [snapValue_one, snapValue_zero]
    rfl
  have hguard : (0 : ℤ) ≤ 0 ∧
      (0 : ℤ) < (([⟨1000, 1000, true⟩] : List SourcePage).length : ℤ) := by
    refine ⟨le_refl 0, ?_⟩
    show (0 : ℤ) < ((1 : ℕ) : ℤ)
    norm_num
  have hplace : place_single_page [⟨1000, 1000, true⟩] 0 (10005 / 10) (10005 / 10) =
      [CTM.identity] := by
    rw [place_single_page, if_pos hguard]
    show (if (⟨1000, 1000, true⟩ : SourcePage).hasContent = true
        then [clean_ctm (merge_fit_ctm 1000 1000 0 0 (10005 / 10) (10005 / 10))]
        else []) = _
    rw [if_pos rfl, hmerge, hclean]
  refine ⟨?_, ?_, rfl, by norm_num⟩
  · show [place_single_page [⟨1000, 1000, true⟩] ((0 : ℕ) : ℤ) (10005 / 10) (10005 / 10)] =
      [[CTM.identity]]
    rw [show ((0 : ℕ) : ℤ) = 0 from rfl, hplace]
  · rw [fit_base_scale, min_self]
    norm_num

/-- Counterexample to C7 as stated: two placements of the same source page
(index `0`) on one sheet both register the resource name `/Fm0` — the name
depends only on the source index, so the sheet's registered names are not
unique and the second registration overwrites the first. -/
theorem xobj_names_collide_for_same_page :
    xobj_name 0 = "/Fm0" ∧
    sheet_xobject_names [0, 0] = ["/Fm0", "/Fm0"] ∧
    ¬ (sheet_xobject_names [0, 0]).Nodup := by
  refine ⟨rfl, rfl, ?_⟩
  decide

/-- **C7 (amended)**: each placement registers the reusable-block name
`"/Fm" ++ decimal(source_idx)`, which is injective in the source page
index — so placements of *distinct* source pages on one sheet never
register colliding names; two placements of the *same* source page reuse
the same name (the second registration overwrites the first with an
equivalent block). -/
theorem xobj_names_injective :
    (∀ a b : ℕ, a ≠ b → xobj_name a ≠ xobj_name b) ∧
    (∀ placements : List ℕ, placements.Nodup →
      (sheet_xobject_names placements).Nodup) ∧
    (∀ a : ℕ, xobj_name a = xobj_name a) := by
  have hinj : ∀ a b : ℕ, xobj_name a = xobj_name b → a = b := by
    intro a b h
    apply nat_repr_inj
    have hdata := congrArg String.data h
    have ha : (xobj_name a).data = "/Fm".data ++ (Nat.repr a).data := by
      show ("/Fm" ++ Nat.repr a).data = _
      exact String.data_append "/Fm" (Nat.repr a)
    have hb : (xobj_name b).data = "/Fm".data ++ (Nat.repr b).data := by
      show ("/Fm" ++ Nat.repr b).data = _
      exact String.data_append "/Fm" (Nat.repr b)
    rw [ha, hb] at hdata
    have hd := List.append_cancel_left hdata
    exact String.ext hd
  refine ⟨fun a b hab h => hab (hinj a b h), ?_, fun a => rfl⟩
  intro placements hnd
  exact hnd.map (fun a b h => hinj a b h)

/-- Witness for C7 (amended): indices `0` and `1` get distinct names, and a
sheet placing the distinct pages `7` and `0` registers duplicate-free
names. -/
theorem xobj_names_injective_witness :
    xobj_name 0 ≠ xobj_name 1 ∧ (sheet_xobject_names [7, 0]).Nodup :=
  ⟨xobj_names_injective.1 0 1 (by decide),
   xobj_names_injective.2.1 [7, 0] (by decide)⟩
